import Mathlib

/-!
# Verification of the coin-identifier response formatter and upload controller

Shallow embedding of `src/pages/Home.tsx`: the pure text formatter
`formatAnalysis` (a pseudo-markdown line classifier) and the state logic of
`handleImageUpload` / `handleAnalyze`.  Lines are modelled as lists of
characters; JavaScript's single-character `split` and `join` are translated
directly.
-/

namespace CoinIdentifier

/-- The backtick character stripped by the markdown cleanup regex. -/
def backtickChar : Char := Char.ofNat 96

/-- `line.replace(/[*_#`]/g, '')`: delete every `*`, `_`, `#` and backtick. -/
def stripMarkdown (cs : List Char) : List Char :=
  cs.filter (fun c => !(c = '*' || c = '_' || c = '#' || c = backtickChar))

/-- JavaScript `String.prototype.trim()`: drop whitespace at both ends. -/
def trimChars (cs : List Char) : List Char :=
  ((cs.dropWhile Char.isWhitespace).reverse.dropWhile Char.isWhitespace).reverse

/-- JavaScript `str.split(sep)` for a single-character separator. -/
def splitChar (sep : Char) : List Char → List (List Char)
  | [] => [[]]
  | c :: rest =>
    if c = sep then [] :: splitChar sep rest
    else
      match splitChar sep rest with
      | [] => [[c]]
      | h :: t => (c :: h) :: t

/-- JavaScript `parts.join(sep)` for a single-character separator. -/
def joinChar (sep : Char) : List (List Char) → List Char
  | [] => []
  | [x] => x
  | x :: xs => x ++ sep :: joinChar sep xs

/-- The regex test `/^\d+\./.test(s)`: one or more digits then a period at
the start. -/
def testNumDot (cs : List Char) : Bool :=
  match cs with
  | [] => false
  | c :: _ => c.isDigit && ((cs.dropWhile Char.isDigit).head? == some '.')

/-- `s.replace(/^\d+\.\s*/, '')` on a string already known to match the
test: drop the digit run, the period, then following whitespace. -/
def stripNumDot (cs : List Char) : List Char :=
  ((cs.dropWhile Char.isDigit).drop 1).dropWhile Char.isWhitespace

/-- One typed display block emitted by the formatter (the JSX element kinds
of `formatAnalysis`). -/
inductive Block where
  | sectionHeader (title : String)
  | labeledField (label value : String)
  | bulletItem (text : String)
  | paragraph (text : String)
deriving DecidableEq, Repr

/-- The cleaned form of a line: markdown punctuation stripped, then
trimmed (`const cleanLine = line.replace(/[*_#`]/g, '').trim()`). -/
def cleanOf (line : List Char) : List Char :=
  trimChars (stripMarkdown line)

/-- The per-line body of `formatAnalysis`: classify one line into an
optional display block, `none` for lines whose cleaned form is empty. -/
def formatLine (line : List Char) : Option Block :=
  let cleanLine := cleanOf line
  if cleanLine.isEmpty then none
  else if testNumDot cleanLine then
    some (Block.sectionHeader (stripNumDot cleanLine).asString)
  else if cleanLine.head? == some '-' && cleanLine.contains ':' then
    match splitChar ':' (cleanLine.drop 1) with
    | [] => none
    | label :: valueParts =>
      some (Block.labeledField (trimChars label).asString
        (trimChars (joinChar ':' valueParts)).asString)
  else if cleanLine.head? == some '-' then
    some (Block.bulletItem (trimChars (cleanLine.drop 1)).asString)
  else
    some (Block.paragraph cleanLine.asString)

/-- `formatAnalysis`: split the text on newlines, map each line to an
optional block, and keep the non-null results in order
(`text.split('\n').map(...).filter(Boolean)`). -/
def formatAnalysis (text : String) : List Block :=
  (splitChar '\n' text.toList).filterMap formatLine

/-! ## Upload / analysis controller -/

/-- The component state of `Home`: current image (a data URI), analysis
text, loading flag and error message. -/
structure UIState where
  image : Option String
  analysis : String
  loading : Bool
  error : Option String
deriving DecidableEq, Repr

/-- An uploaded file as seen by `handleImageUpload`: its MIME type and its
size in bytes. -/
structure UploadFile where
  type : String
  size : Nat
deriving DecidableEq, Repr

/-- Outcome of the asynchronous `FileReader.readAsDataURL` read: either the
base64-encoded data URI, or a read error. -/
inductive ReadResult where
  | ok (dataUri : String)
  | err
deriving DecidableEq, Repr

/-- Outcome of the external `analyzeImage` call: success with the result
text, rejection with an `Error` carrying a message, or rejection with a
non-`Error` value (no message). -/
inductive AnalyzerResult where
  | ok (text : String)
  | errWithMessage (msg : String)
  | errNoMessage
deriving DecidableEq, Repr

/-- One invocation of the external analyzer with its two arguments. -/
structure AnalyzerCall where
  imageData : String
  prompt : String
deriving DecidableEq, Repr

/-- The fixed coin-analysis prompt string (`coinPrompt` in `handleAnalyze`). -/
def coinPrompt : String :=
  "Analyze this coin image for educational purposes and provide the following information:\n1. Coin identification (country, currency, denomination, year, series)\n2. Physical characteristics (diameter, thickness, weight, composition, edge, shape)\n3. Design elements (obverse, reverse, mint mark, designer, inscriptions)\n4. Historical context (significance, mintage, historical period, what it commemorates)\n5. Additional information (collectible value, rarity, notable features, grading)\n\nIMPORTANT: This is for educational purposes only."

/-- `handleAnalyze(imageData)`: set loading, clear the error, call the
analyzer with `(imageData, coinPrompt)`; on success store the result, on
failure store the error message (or the generic fallback for a message-less
failure); the `finally` block clears loading in every case.  Returns the
final state and the list of analyzer calls made. -/
def handleAnalyze (st : UIState) (imageData : String) (res : AnalyzerResult) :
    UIState × List AnalyzerCall :=
  let st1 : UIState := { st with loading := true, error := none }
  let st2 : UIState :=
    match res with
    | .ok t => { st1 with analysis := t }
    | .errWithMessage m => { st1 with error := some m }
    | .errNoMessage =>
        { st1 with error := some "Failed to analyze image. Please try again." }
  ({ st2 with loading := false }, [⟨imageData, coinPrompt⟩])

/-- `handleImageUpload(e)`: if no file was selected do nothing; reject a
non-`image/*` MIME type, then a size above 20 MiB, with the respective
error messages; otherwise read the file and, on a successful read, store
the data URI, clear the error and run `handleAnalyze` on it.  Returns the
final state and the list of analyzer calls made. -/
def handleImageUpload (st : UIState) (file? : Option UploadFile)
    (read : ReadResult) (res : AnalyzerResult) : UIState × List AnalyzerCall :=
  match file? with
  | none => (st, [])
  | some file =>
    if !("image/".toList.isPrefixOf file.type.toList) then
      ({ st with error := some "Please upload a valid image file" }, [])
    else if file.size > 20 * 1024 * 1024 then
      ({ st with error := some "Image size should be less than 20MB" }, [])
    else
      match read with
      | .ok base64String =>
          handleAnalyze { st with image := some base64String, error := none }
            base64String res
      | .err =>
          ({ st with error := some "Failed to read the image file. Please try again." }, [])

/-- Unfolding of `handleImageUpload` on a present file. -/
theorem handleImageUpload_some (st : UIState) (file : UploadFile)
    (read : ReadResult) (res : AnalyzerResult) :
    handleImageUpload st (some file) read res =
      if !("image/".toList.isPrefixOf file.type.toList) then
        ({ st with error := some "Please upload a valid image file" }, [])
      else if file.size > 20 * 1024 * 1024 then
        ({ st with error := some "Image size should be less than 20MB" }, [])
      else
        match read with
        | .ok base64String =>
            handleAnalyze { st with image := some base64String, error := none }
              base64String res
        | .err =>
            ({ st with error := some "Failed to read the image file. Please try again." }, []) :=
  rfl

/-! ## Basic lemmas about the split/join primitives -/

theorem splitChar_ne_nil (sep : Char) (cs : List Char) : splitChar sep cs ≠ [] := by
  cases cs with
  | nil => simp [splitChar]
  | cons c rest =>
    simp only [splitChar]
    split
    · simp
    · split <;> simp

theorem joinChar_splitChar (sep : Char) (cs : List Char) :
    joinChar sep (splitChar sep cs) = cs := by
  induction cs with
  | nil => rfl
  | cons c rest ih =>
    rcases hsp : splitChar sep rest with _ | ⟨h, t⟩
    · exact absurd hsp (splitChar_ne_nil sep rest)
    · rw [hsp] at ih
      by_cases hc : c = sep
      · subst hc
        simp only [splitChar, if_pos rfl, hsp]
        cases t <;> simp [joinChar] at ih ⊢ <;> simp [ih]
      · simp only [splitChar, if_neg hc, hsp]
        cases t <;> simp [joinChar] at ih ⊢ <;> simp [ih]

theorem splitChar_of_mem (sep : Char) (cs : List Char) (h : sep ∈ cs) :
    splitChar sep cs =
      cs.takeWhile (fun x => x != sep) ::
        splitChar sep ((cs.dropWhile (fun x => x != sep)).drop 1) := by
  induction cs with
  | nil => cases h
  | cons c rest ih =>
    by_cases hc : c = sep
    · subst hc
      simp [splitChar, List.takeWhile_cons, List.dropWhile_cons]
    · have hmem : sep ∈ rest := by
        rcases List.mem_cons.mp h with h' | h'
        · exact absurd h'.symm hc
        · exact h'
      simp [splitChar, hc, List.takeWhile_cons, List.dropWhile_cons, ih hmem]

theorem dropWhile_digits_append (ds rest : List Char)
    (hdig : ∀ c ∈ ds, c.isDigit = true) :
    List.dropWhile Char.isDigit (ds ++ rest) = List.dropWhile Char.isDigit rest := by
  induction ds with
  | nil => rfl
  | cons d ds ih =>
    have hd : d.isDigit = true := hdig d (by simp)
    simp only [List.cons_append, List.dropWhile_cons, hd, if_true]
    exact ih (fun c hc => hdig c (by simp [hc]))

/-! ## Per-line classification lemmas -/

/-- A cleaned line starting with `-` and containing `:` is classified as a
labeled field: label up to the first colon, value the rest after it. -/
theorem formatLine_labeled (line : List Char)
    (hd : (cleanOf line).head? = some '-')
    (hc : (cleanOf line).contains ':' = true) :
    formatLine line = some (Block.labeledField
      ((trimChars (((cleanOf line).drop 1).takeWhile (fun x => x != ':'))).asString)
      ((trimChars ((((cleanOf line).drop 1).dropWhile (fun x => x != ':')).drop 1)).asString)) := by
  rcases hcl : cleanOf line with _ | ⟨a, t⟩
  · rw [hcl] at hd; simp at hd
  · rw [hcl] at hd hc
    have ha : a = '-' := by simpa using hd
    subst ha
    have hmem : ':' ∈ t := by
      have hm : ':' ∈ '-' :: t := by simpa using hc
      rcases List.mem_cons.mp hm with h' | h'
      · simp at h'
      · exact h'
    have hdig : Char.isDigit '-' = false := by decide
    simp only [formatLine, hcl, List.isEmpty_cons, testNumDot, hdig, Bool.false_and,
      Bool.false_eq_true, if_false, List.head?_cons, beq_self_eq_true, hc, Bool.and_self,
      if_true, List.drop_succ_cons, List.drop_zero]
    rw [splitChar_of_mem _ t hmem]
    dsimp only
    rw [joinChar_splitChar]

/-- A cleaned line of the shape `digits ++ '.' ++ rest` is classified as a
section header whose title is `rest` with leading whitespace removed. -/
theorem formatLine_section (line ds rest : List Char)
    (hcl : cleanOf line = ds ++ '.' :: rest)
    (hne : ds ≠ [])
    (hdig : ∀ c ∈ ds, c.isDigit = true) :
    formatLine line = some (Block.sectionHeader
      (rest.dropWhile Char.isWhitespace).asString) := by
  rcases ds with _ | ⟨d, ds'⟩
  · exact absurd rfl hne
  · have hd : d.isDigit = true := hdig d (by simp)
    have hdig' : ∀ c ∈ ds', c.isDigit = true := fun c hc => hdig c (by simp [hc])
    have hdrop' : List.dropWhile Char.isDigit (ds' ++ '.' :: rest) = '.' :: rest := by
      rw [dropWhile_digits_append ds' _ hdig', List.dropWhile_cons_of_neg (by decide)]
    have htest : testNumDot (d :: (ds' ++ '.' :: rest)) = true := by
      simp [testNumDot, hd, List.dropWhile_cons, hdrop']
    have hstrip : stripNumDot (d :: (ds' ++ '.' :: rest))
        = rest.dropWhile Char.isWhitespace := by
      simp [stripNumDot, List.dropWhile_cons, hd, hdrop']
    simp [formatLine, hcl, htest, hstrip]

/-- A cleaned line starting with `-` and containing no `:` is classified as
a bullet item carrying the trimmed text after the dash. -/
theorem formatLine_bullet (line : List Char)
    (hd : (cleanOf line).head? = some '-')
    (hc : (cleanOf line).contains ':' = false) :
    formatLine line = some (Block.bulletItem
      ((trimChars ((cleanOf line).drop 1)).asString)) := by
  rcases hcl : cleanOf line with _ | ⟨a, t⟩
  · rw [hcl] at hd; simp at hd
  · rw [hcl] at hd hc
    have ha : a = '-' := by simpa using hd
    subst ha
    have hdig : Char.isDigit '-' = false := by decide
    have htest : testNumDot ('-' :: t) = false := by simp [testNumDot, hdig]
    simp only [formatLine, hcl, List.isEmpty_cons, Bool.false_eq_true, if_false,
      htest, List.head?_cons, beq_self_eq_true, Bool.true_and, hc, if_true,
      List.drop_succ_cons, List.drop_zero]

/-- `formatLine` yields a block exactly on the lines whose cleaned form is
non-empty. -/
theorem formatLine_isSome (line : List Char) :
    (formatLine line).isSome = !(cleanOf line).isEmpty := by
  simp only [formatLine]
  cases h : (cleanOf line).isEmpty
  · simp only [h, Bool.not_false, Bool.false_eq_true, if_false]
    split_ifs <;> try simp
    rcases hsp : splitChar ':' ((cleanOf line).tail) with _ | ⟨lb, vp⟩
    · exact absurd hsp (splitChar_ne_nil _ _)
    · simp
  · simp [h]

/-- Dropping the empty-cleaned lines changes neither the emitted blocks nor
their number; each remaining line contributes exactly one block. -/
theorem filterMap_formatLine_eq (ls : List (List Char)) :
    ls.filterMap formatLine
      = (ls.filter (fun l => !(cleanOf l).isEmpty)).filterMap formatLine
    ∧ (ls.filterMap formatLine).length
      = (ls.filter (fun l => !(cleanOf l).isEmpty)).length := by
  induction ls with
  | nil => exact ⟨rfl, rfl⟩
  | cons l ls ih =>
    cases h : (cleanOf l).isEmpty
    · have hs : (formatLine l).isSome = true := by rw [formatLine_isSome, h]; rfl
      rcases Option.isSome_iff_exists.mp hs with ⟨b, hb⟩
      have hf : List.filter (fun l => !(cleanOf l).isEmpty) (l :: ls)
          = l :: List.filter (fun l => !(cleanOf l).isEmpty) ls := by
        simp [List.filter_cons, h]
      refine ⟨?_, ?_⟩
      · rw [List.filterMap_cons_some hb, hf, List.filterMap_cons_some hb, ih.1]
      · rw [List.filterMap_cons_some hb, hf]
        simp [ih.2]
    · have hn : formatLine l = none := by
        cases heq : formatLine l with
        | none => rfl
        | some b =>
          have hs := formatLine_isSome l
          rw [h, heq] at hs
          simp at hs
      have hf : List.filter (fun l => !(cleanOf l).isEmpty) (l :: ls)
          = List.filter (fun l => !(cleanOf l).isEmpty) ls := by
        simp [List.filter_cons, h]
      refine ⟨?_, ?_⟩
      · rw [List.filterMap_cons_none hn, hf, ih.1]
      · rw [List.filterMap_cons_none hn, hf, ih.2]

/-! ## The claims -/

/-- C1: every input line whose cleaned form (markdown characters removed,
then trimmed) starts with `-` and contains a `:` is emitted as a
`LabeledField` whose label is the text between the dropped leading `-` and
the first `:` (trimmed) and whose value is the remainder after the first
`:`, further colons included (trimmed). -/
theorem claim1_labeled_field (line : List Char)
    (hd : (cleanOf line).head? = some '-')
    (hc : (cleanOf line).contains ':' = true) :
    formatLine line = some (Block.labeledField
      ((trimChars (((cleanOf line).drop 1).takeWhile (fun x => x != ':'))).asString)
      ((trimChars ((((cleanOf line).drop 1).dropWhile (fun x => x != ':')).drop 1)).asString)) :=
  formatLine_labeled line hd hc

theorem claim1_witness :
    formatLine ("- Country: United States".toList)
      = some (Block.labeledField "Country" "United States") := by
  rw [claim1_labeled_field ("- Country: United States".toList) (by decide) (by decide)]
  decide

/-- C2: every input line whose cleaned form consists of one or more digits
followed by a period (the regex `^\d+\.`) is emitted as a `SectionHeader`
whose title is the cleaned line with the leading number-period prefix and
the following whitespace removed. -/
theorem claim2_section_header (line ds rest : List Char)
    (hcl : cleanOf line = ds ++ '.' :: rest)
    (hne : ds ≠ [])
    (hdig : ∀ c ∈ ds, c.isDigit = true) :
    formatLine line = some (Block.sectionHeader
      (rest.dropWhile Char.isWhitespace).asString) :=
  formatLine_section line ds rest hcl hne hdig

theorem claim2_witness :
    formatLine ("1. Coin Identification:".toList)
      = some (Block.sectionHeader "Coin Identification:") := by
  rw [claim2_section_header ("1. Coin Identification:".toList) ['1']
    (" Coin Identification:".toList) (by decide) (by decide) (by decide)]
  decide

/-- C3: every input line whose cleaned form starts with `-`, does not match
`^\d+\.`, and contains no `:` is emitted as a `BulletItem` carrying the
text after the leading `-`, trimmed; and by the strict priority order a
dash line that does contain a `:` is never classified as a `BulletItem`. -/
theorem claim3_bullet_item (line : List Char) :
    ((cleanOf line).head? = some '-' →
      testNumDot (cleanOf line) = false →
      (cleanOf line).contains ':' = false →
      formatLine line = some (Block.bulletItem
        ((trimChars ((cleanOf line).drop 1)).asString)))
    ∧ ((cleanOf line).head? = some '-' →
      (cleanOf line).contains ':' = true →
      ∀ t, formatLine line ≠ some (Block.bulletItem t)) := by
  constructor
  · intro hd _ hc
    exact formatLine_bullet line hd hc
  · intro hd hc t
    rw [formatLine_labeled line hd hc]
    simp

theorem claim3_witness :
    formatLine ("- Reeded (ridged)".toList)
      = some (Block.bulletItem "Reeded (ridged)")
    ∧ formatLine ("- Country: United States".toList)
      ≠ some (Block.bulletItem "Country: United States") := by
  constructor
  · rw [(claim3_bullet_item ("- Reeded (ridged)".toList)).1
      (by decide) (by decide) (by decide)]
    decide
  · exact (claim3_bullet_item ("- Country: United States".toList)).2
      (by decide) (by decide) _

/-- C4: the formatter emits exactly one display block per line that is
non-empty after stripping the markdown characters (asterisk, underscore,
hash, backtick) and trimming, in input line order; lines that are empty
after the cleaning contribute no block. -/
theorem claim4_blocks_per_line (text : String) :
    formatAnalysis text
      = ((splitChar '\n' text.toList).filter
          (fun l => !(cleanOf l).isEmpty)).filterMap formatLine
    ∧ (formatAnalysis text).length
      = ((splitChar '\n' text.toList).filter
          (fun l => !(cleanOf l).isEmpty)).length := by
  simpa [formatAnalysis] using filterMap_formatLine_eq (splitChar '\n' text.toList)

/-- C5: the formatter is a pure, deterministic function of its input text:
any two runs on the same text yield identical block sequences. -/
theorem claim5_deterministic (text : String) (run1 run2 : List Block)
    (h1 : run1 = formatAnalysis text) (h2 : run2 = formatAnalysis text) :
    run1 = run2 :=
  h1.trans h2.symm

theorem claim5_witness :
    formatAnalysis "1. A:\n- B: C" = formatAnalysis "1. A:\n- B: C" :=
  claim5_deterministic "1. A:\n- B: C" _ _ rfl rfl

/-- C6: on analyzer failure the error message is surfaced verbatim as the
controller's error state, or the generic fallback if the failure carries no
message; and loading is false after every `handleAnalyze` call. -/
theorem claim6_error_surfacing (st : UIState) (img m : String) :
    (handleAnalyze st img (.errWithMessage m)).1.error = some m
    ∧ (handleAnalyze st img .errNoMessage).1.error
        = some "Failed to analyze image. Please try again."
    ∧ ∀ res : AnalyzerResult, (handleAnalyze st img res).1.loading = false := by
  refine ⟨rfl, rfl, fun res => ?_⟩
  cases res <;> rfl

/-- C7: for an image-typed file, the upload fails with the size error and
does not invoke the analyzer exactly when the file exceeds
`20*1024*1024` bytes. -/
theorem claim7_size_validation (st : UIState) (file : UploadFile)
    (read : ReadResult) (res : AnalyzerResult)
    (ht : "image/".toList.isPrefixOf file.type.toList = true) :
    ((handleImageUpload st (some file) read res).1.error
        = some "Image size should be less than 20MB"
      ∧ (handleImageUpload st (some file) read res).2 = [])
    ↔ file.size > 20 * 1024 * 1024 := by
  simp only [handleImageUpload]
  rw [ht]
  simp only [Bool.not_true, Bool.false_eq_true, if_false]
  by_cases hs : file.size > 20 * 1024 * 1024
  · simp [hs]
  · rw [if_neg hs]
    constructor
    · rintro ⟨he, hc⟩
      cases read with
      | ok uri => simp [handleAnalyze] at hc
      | err => simp at he
    · intro h
      exact absurd h hs

theorem claim7_witness :
    (((handleImageUpload ⟨none, "", false, none⟩
          (some ⟨"image/jpeg", 25 * 1024 * 1024⟩)
          ReadResult.err AnalyzerResult.errNoMessage).1.error
        = some "Image size should be less than 20MB"
      ∧ (handleImageUpload ⟨none, "", false, none⟩
          (some ⟨"image/jpeg", 25 * 1024 * 1024⟩)
          ReadResult.err AnalyzerResult.errNoMessage).2 = [])
      ↔ 25 * 1024 * 1024 > 20 * 1024 * 1024)
    ∧ (((handleImageUpload ⟨none, "", false, none⟩
          (some ⟨"image/jpeg", 20 * 1024 * 1024⟩)
          ReadResult.err AnalyzerResult.errNoMessage).1.error
        = some "Image size should be less than 20MB"
      ∧ (handleImageUpload ⟨none, "", false, none⟩
          (some ⟨"image/jpeg", 20 * 1024 * 1024⟩)
          ReadResult.err AnalyzerResult.errNoMessage).2 = [])
      ↔ 20 * 1024 * 1024 > 20 * 1024 * 1024) :=
  ⟨claim7_size_validation _ _ _ _ (by decide),
   claim7_size_validation _ _ _ _ (by decide)⟩

/-- C8: for a file whose MIME type does not start with `image/`, the upload
fails with the type error and the analyzer is not invoked, regardless of
the file's size (the type check precedes the size check). -/
theorem claim8_type_validation (st : UIState) (file : UploadFile)
    (read : ReadResult) (res : AnalyzerResult)
    (ht : "image/".toList.isPrefixOf file.type.toList = false) :
    (handleImageUpload st (some file) read res).1.error
        = some "Please upload a valid image file"
    ∧ (handleImageUpload st (some file) read res).2 = [] := by
  simp only [handleImageUpload]
  rw [ht]
  simp

theorem claim8_witness :
    (handleImageUpload ⟨none, "", false, none⟩
        (some ⟨"text/plain", 25 * 1024 * 1024⟩)
        ReadResult.err AnalyzerResult.errNoMessage).1.error
      = some "Please upload a valid image file"
    ∧ (handleImageUpload ⟨none, "", false, none⟩
        (some ⟨"text/plain", 25 * 1024 * 1024⟩)
        ReadResult.err AnalyzerResult.errNoMessage).2 = [] :=
  claim8_type_validation _ _ _ _ (by decide)

/-- C9: for a valid uploaded file (image MIME type, size within the limit,
successful read) the controller triggers exactly one analyzer call, whose
arguments are the file's data URI and the fixed coin-analysis prompt; on
analyzer success the analysis text is replaced and the error is cleared. -/
theorem claim9_analyzer_invocation (st : UIState) (file : UploadFile)
    (dataUri result : String) (res : AnalyzerResult)
    (ht : "image/".toList.isPrefixOf file.type.toList = true)
    (hs : ¬ file.size > 20 * 1024 * 1024) :
    (handleImageUpload st (some file) (.ok dataUri) res).2 = [⟨dataUri, coinPrompt⟩]
    ∧ (handleImageUpload st (some file) (.ok dataUri) (.ok result)).1.analysis = result
    ∧ (handleImageUpload st (some file) (.ok dataUri) (.ok result)).1.error = none := by
  simp only [handleImageUpload]
  rw [ht]
  simp only [Bool.not_true, Bool.false_eq_true, if_false, if_neg hs]
  cases res <;> simp [handleAnalyze]

theorem claim9_witness :
    (handleImageUpload ⟨none, "", false, none⟩ (some ⟨"image/jpeg", 1024 * 1024⟩)
        (ReadResult.ok "data:image/jpeg;base64,AAAA") (AnalyzerResult.ok "a coin")).2
      = [⟨"data:image/jpeg;base64,AAAA", coinPrompt⟩]
    ∧ (handleImageUpload ⟨none, "", false, none⟩ (some ⟨"image/jpeg", 1024 * 1024⟩)
        (ReadResult.ok "data:image/jpeg;base64,AAAA") (AnalyzerResult.ok "a coin")).1.analysis
      = "a coin"
    ∧ (handleImageUpload ⟨none, "", false, none⟩ (some ⟨"image/jpeg", 1024 * 1024⟩)
        (ReadResult.ok "data:image/jpeg;base64,AAAA") (AnalyzerResult.ok "a coin")).1.error
      = none :=
  claim9_analyzer_invocation _ _ _ "a coin" _ (by decide) (by decide)

/-- C10: when the upload is rejected (unsupported type, or image type but
excessive size), the displayed image, the analysis text and the loading
flag are all left unchanged. -/
theorem claim10_rejection_frame (st : UIState) (file : UploadFile)
    (read : ReadResult) (res : AnalyzerResult)
    (h : "image/".toList.isPrefixOf file.type.toList = false
       ∨ ("image/".toList.isPrefixOf file.type.toList = true ∧ file.size > 20 * 1024 * 1024)) :
    (handleImageUpload st (some file) read res).1.image = st.image
    ∧ (handleImageUpload st (some file) read res).1.analysis = st.analysis
    ∧ (handleImageUpload st (some file) read res).1.loading = st.loading := by
  rcases h with ht | ⟨ht, hs⟩
  · rw [handleImageUpload_some, ht]
    simp
  · rw [handleImageUpload_some, ht]
    simp [hs]

theorem claim10_witness :
    (handleImageUpload ⟨some "prev", "old analysis", false, none⟩
        (some ⟨"text/plain", 1024⟩) ReadResult.err AnalyzerResult.errNoMessage).1.image
      = some "prev"
    ∧ (handleImageUpload ⟨some "prev", "old analysis", false, none⟩
        (some ⟨"text/plain", 1024⟩) ReadResult.err AnalyzerResult.errNoMessage).1.analysis
      = "old analysis"
    ∧ (handleImageUpload ⟨some "prev", "old analysis", false, none⟩
        (some ⟨"text/plain", 1024⟩) ReadResult.err AnalyzerResult.errNoMessage).1.loading
      = false :=
  claim10_rejection_frame _ _ _ _ (Or.inl (by decide))

end CoinIdentifier
